import Mathlib

/-
Shallow embedding of the core of the Simple-Chinese-Chess-Engine repository
(src/board.rs, src/moves.rs, src/evaluation.rs, src/search.rs), together with
theorems checking the claims of the specification against it.

Conventions of the embedding:
* Rust `usize` coordinates become `Nat`; signed intermediate coordinates
  (`i32` in the source) become `Int` with explicit bound checks, exactly where
  the source checks them.  All integer quantities stay far below 2^31 on every
  board (at most 90 occupied squares, each contributing at most 10000), so
  `i32` arithmetic, including the `saturating_add`/`saturating_mul` calls in
  evaluation.rs, coincides with exact `Int` arithmetic and is embedded as such.
* A Rust `[[Square; 9]; 10]` array becomes a function `Nat → Nat → Option
  (Color × Piece)`; all reads performed by the embedded code are bound-checked
  in the source exactly where they are bound-checked here.
* Rust `Vec` accumulation by `push` becomes `List` construction in the same
  order.
-/

inductive Piece where
  | Soldier
  | Horse
  | Elephant
  | Chariot
  | Cannon
  | Advisor
  | General
deriving DecidableEq

inductive Color where
  | Red
  | Black
deriving DecidableEq

/-- The opponent of a color (board.rs computes it inline by an if). -/
def Color.opp : Color → Color
  | Color.Red => Color.Black
  | Color.Black => Color.Red

/-- Board state, from `struct Board` in board.rs: a 10×9 grid of optional
(color, piece) pairs plus the side-to-move flag and the two clocks. -/
structure Board where
  squares : Nat → Nat → Option (Color × Piece)
  red_to_move : Bool
  halfmove_clock : Nat
  fullmove_number : Nat

/-- A move, from `struct Move` in moves.rs; `from` is a Lean keyword, so the
fields are named `fromSq` and `toSq`. -/
structure Move where
  fromSq : Nat × Nat
  toSq : Nat × Nat
deriving DecidableEq

/-- The square reached from `pos` after `k` steps in direction `d`, if it is
on the 10×9 board; mirrors the `i32` coordinate arithmetic and the bound
checks `0 <= x < 10`, `0 <= y < 9` of the Rust scanning loops. -/
def stepPos (pos : Nat × Nat) (d : Int × Int) (k : Nat) : Option (Nat × Nat) :=
  if 0 ≤ (pos.1 : Int) + d.1 * k ∧ (pos.1 : Int) + d.1 * k < 10 ∧
     0 ≤ (pos.2 : Int) + d.2 * k ∧ (pos.2 : Int) + d.2 * k < 9 then
    some (((pos.1 : Int) + d.1 * k).toNat, ((pos.2 : Int) + d.2 * k).toNat)
  else none

/-- The in-bounds squares visited, in order, by a Rust `loop` that starts at
`pos` and repeatedly adds the direction `d` until it leaves the board.  Nine
steps always suffice on a 10×9 board, and once a straight ray leaves the board
it never re-enters, so the per-step bound check below visits exactly the same
squares as the loop. -/
def ray (pos : Nat × Nat) (d : Int × Int) : List (Nat × Nat) :=
  (List.range 9).filterMap (fun k => stepPos pos d (k + 1))

/-- Direction list of `generate_chariot_moves` / `generate_cannon_moves`
in moves.rs. -/
def directions : List (Int × Int) := [(0, 1), (1, 0), (0, -1), (-1, 0)]

/-- The chariot scanning loop of moves.rs along one ray: empty squares are
moves, the first occupied square is a capture iff it is an enemy, and the scan
stops there. -/
def chariotScan (b : Board) (c : Color) (pos : Nat × Nat) :
    List (Nat × Nat) → List Move
  | [] => []
  | q :: rest =>
    match b.squares q.1 q.2 with
    | none => Move.mk pos q :: chariotScan b c pos rest
    | some (pc, _) => if pc ≠ c then [Move.mk pos q] else []

/-- `generate_chariot_moves` from moves.rs. -/
def generate_chariot_moves (b : Board) (pos : Nat × Nat) (c : Color) : List Move :=
  directions.flatMap (fun d => chariotScan b c pos (ray pos d))

/-- The cannon scanning loop of moves.rs along one ray.  Before the platform
is found, empty squares are non-capture moves and the first occupied square
(of either color) becomes the platform; after it, empty squares are skipped
and the first occupied square is a capture iff it is an enemy. -/
def cannonScan (b : Board) (c : Color) (pos : Nat × Nat) :
    Bool → List (Nat × Nat) → List Move
  | _, [] => []
  | false, q :: rest =>
    match b.squares q.1 q.2 with
    | none => Move.mk pos q :: cannonScan b c pos false rest
    | some _ => cannonScan b c pos true rest
  | true, q :: rest =>
    match b.squares q.1 q.2 with
    | none => cannonScan b c pos true rest
    | some (pc, _) => if pc ≠ c then [Move.mk pos q] else []

/-- `generate_cannon_moves` from moves.rs. -/
def generate_cannon_moves (b : Board) (pos : Nat × Nat) (c : Color) : List Move :=
  directions.flatMap (fun d => cannonScan b c pos false (ray pos d))

/-- `is_horse_blocked` from moves.rs, a literal transcription (the `usize`
subtractions are guarded by the comparisons, as in the source). -/
def is_horse_blocked (b : Board) (f t : Nat × Nat) : Bool :=
  let blocking : Nat × Nat :=
    if t.1 > f.1 then
      if t.2 > f.2 then
        if t.1 - f.1 = 2 then (f.1 + 1, f.2) else (f.1, f.2 + 1)
      else
        if t.1 - f.1 = 2 then (f.1 + 1, f.2) else (f.1, f.2 - 1)
    else
      if t.2 > f.2 then
        if f.1 - t.1 = 2 then (f.1 - 1, f.2) else (f.1, f.2 + 1)
      else
        if f.1 - t.1 = 2 then (f.1 - 1, f.2) else (f.1, f.2 - 1)
  (b.squares blocking.1 blocking.2).isSome

/-- The eight guarded horse destinations of `generate_horse_moves` in
moves.rs, in source order (the Rust builds an array of `Option`s and
flattens it). -/
def horse_candidates (pos : Nat × Nat) : List (Nat × Nat) :=
  (if pos.1 ≥ 2 ∧ pos.2 ≤ 7 then [(pos.1 - 2, pos.2 + 1)] else []) ++
  (if pos.1 ≥ 2 ∧ pos.2 ≥ 1 then [(pos.1 - 2, pos.2 - 1)] else []) ++
  (if pos.1 + 2 ≤ 9 ∧ pos.2 ≤ 7 then [(pos.1 + 2, pos.2 + 1)] else []) ++
  (if pos.1 + 2 ≤ 9 ∧ pos.2 ≥ 1 then [(pos.1 + 2, pos.2 - 1)] else []) ++
  (if pos.1 ≥ 1 ∧ pos.2 ≤ 6 then [(pos.1 - 1, pos.2 + 2)] else []) ++
  (if pos.1 ≥ 1 ∧ pos.2 ≥ 2 then [(pos.1 - 1, pos.2 - 2)] else []) ++
  (if pos.1 + 1 ≤ 9 ∧ pos.2 ≤ 6 then [(pos.1 + 1, pos.2 + 2)] else []) ++
  (if pos.1 + 1 ≤ 9 ∧ pos.2 ≥ 2 then [(pos.1 + 1, pos.2 - 2)] else [])

/-- `generate_horse_moves` from moves.rs. -/
def generate_horse_moves (b : Board) (pos : Nat × Nat) (c : Color) : List Move :=
  (horse_candidates pos).filterMap fun q =>
    if is_horse_blocked b pos q = false then
      match b.squares q.1 q.2 with
      | some (pc, _) => if pc ≠ c then some (Move.mk pos q) else none
      | none => some (Move.mk pos q)
    else none

/-- The palace squares used by `generate_general_moves` in moves.rs. -/
def general_palace : Color → List (Nat × Nat)
  | Color.Red => [(7, 3), (7, 4), (7, 5), (8, 3), (8, 4), (8, 5), (9, 3), (9, 4), (9, 5)]
  | Color.Black => [(0, 3), (0, 4), (0, 5), (1, 3), (1, 4), (1, 5), (2, 3), (2, 4), (2, 5)]

/-- `generate_general_moves` from moves.rs: palace squares at Manhattan
distance one whose destination is empty or an enemy. -/
def generate_general_moves (b : Board) (pos : Nat × Nat) (c : Color) : List Move :=
  (general_palace c).filterMap fun q =>
    if ((q.1 : Int) - pos.1).natAbs + ((q.2 : Int) - pos.2).natAbs = 1 then
      match b.squares q.1 q.2 with
      | some (pc, _) => if pc ≠ c then some (Move.mk pos q) else none
      | none => some (Move.mk pos q)
    else none

/-- The palace squares used by `generate_advisor_moves` in moves.rs. -/
def advisor_palace : Color → List (Nat × Nat)
  | Color.Red => [(7, 3), (7, 5), (8, 4), (9, 3), (9, 5)]
  | Color.Black => [(0, 3), (0, 5), (1, 4), (2, 3), (2, 5)]

/-- `generate_advisor_moves` from moves.rs: palace squares one diagonal step
away whose destination is empty or an enemy. -/
def generate_advisor_moves (b : Board) (pos : Nat × Nat) (c : Color) : List Move :=
  (advisor_palace c).filterMap fun q =>
    if ((q.1 : Int) - pos.1).natAbs = 1 ∧ ((q.2 : Int) - pos.2).natAbs = 1 then
      match b.squares q.1 q.2 with
      | some (pc, _) => if pc ≠ c then some (Move.mk pos q) else none
      | none => some (Move.mk pos q)
    else none

/-- `add_elephant_move` from moves.rs: river-side check, elephant-eye check,
then the destination check. -/
def add_elephant_move (b : Board) (pos newPos : Nat × Nat) (c : Color) : List Move :=
  if (c = Color.Red ∧ newPos.1 ≥ 5) ∨ (c = Color.Black ∧ newPos.1 ≤ 4) then
    if b.squares ((pos.1 + newPos.1) / 2) ((pos.2 + newPos.2) / 2) = none then
      match b.squares newPos.1 newPos.2 with
      | some (pc, _) => if pc ≠ c then [Move.mk pos newPos] else []
      | none => [Move.mk pos newPos]
    else []
  else []

/-- `generate_elephant_moves` from moves.rs: the four bound-checked diagonal
jumps, each handed to `add_elephant_move`. -/
def generate_elephant_moves (b : Board) (pos : Nat × Nat) (c : Color) : List Move :=
  (if pos.1 + 2 ≤ 9 ∧ pos.2 + 2 ≤ 8 then add_elephant_move b pos (pos.1 + 2, pos.2 + 2) c else []) ++
  (if pos.1 + 2 ≤ 9 ∧ pos.2 ≥ 2 then add_elephant_move b pos (pos.1 + 2, pos.2 - 2) c else []) ++
  (if pos.1 ≥ 2 ∧ pos.2 + 2 ≤ 8 then add_elephant_move b pos (pos.1 - 2, pos.2 + 2) c else []) ++
  (if pos.1 ≥ 2 ∧ pos.2 ≥ 2 then add_elephant_move b pos (pos.1 - 2, pos.2 - 2) c else [])

/-- The candidate squares built by `generate_soldier_moves` in moves.rs
(forward step, plus sideways steps once `rank < 5` for Red / `rank > 4` for
Black), in source order. -/
def soldier_candidates (pos : Nat × Nat) (c : Color) : List (Nat × Nat) :=
  match c with
  | Color.Red =>
    (if pos.1 > 0 then [(pos.1 - 1, pos.2)] else []) ++
    (if pos.1 < 5 then
      (if pos.2 > 0 then [(pos.1, pos.2 - 1)] else []) ++
      (if pos.2 < 8 then [(pos.1, pos.2 + 1)] else [])
     else [])
  | Color.Black =>
    (if pos.1 < 9 then [(pos.1 + 1, pos.2)] else []) ++
    (if pos.1 > 4 then
      (if pos.2 > 0 then [(pos.1, pos.2 - 1)] else []) ++
      (if pos.2 < 8 then [(pos.1, pos.2 + 1)] else [])
     else [])

/-- `generate_soldier_moves` from moves.rs. -/
def generate_soldier_moves (b : Board) (pos : Nat × Nat) (c : Color) : List Move :=
  (soldier_candidates pos c).filterMap fun q =>
    match b.squares q.1 q.2 with
    | some (pc, _) => if pc ≠ c then some (Move.mk pos q) else none
    | none => some (Move.mk pos q)

/-- `generate_piece_moves` from moves.rs (the dispatcher; the source unwraps
the occupied square, which its callers guarantee — an empty square yields no
moves here). -/
def generate_piece_moves (b : Board) (pos : Nat × Nat) : List Move :=
  match b.squares pos.1 pos.2 with
  | none => []
  | some (c, pt) =>
    match pt with
    | Piece.General => generate_general_moves b pos c
    | Piece.Advisor => generate_advisor_moves b pos c
    | Piece.Elephant => generate_elephant_moves b pos c
    | Piece.Horse => generate_horse_moves b pos c
    | Piece.Chariot => generate_chariot_moves b pos c
    | Piece.Cannon => generate_cannon_moves b pos c
    | Piece.Soldier => generate_soldier_moves b pos c

/-- The color whose turn it is, as moves.rs computes it from `red_to_move`. -/
def side_color (b : Board) : Color :=
  if b.red_to_move then Color.Red else Color.Black

/-- `generate_legal_moves` from moves.rs: for every square holding a piece of
the side to move, append that piece's moves. -/
def generate_legal_moves (b : Board) : List Move :=
  (List.range 10).flatMap fun rank =>
    (List.range 9).flatMap fun file =>
      match b.squares rank file with
      | some (pc, _) =>
        if pc = side_color b then generate_piece_moves b (rank, file) else []
      | none => []

/-- Build the square map of a concrete board position from a placement list
(later entries would win, but all test positions list each square once). -/
def squaresOf (l : List ((Nat × Nat) × Color × Piece)) : Nat → Nat → Option (Color × Piece) :=
  fun r f => (l.find? (fun e => e.1.1 = r ∧ e.1.2 = f)).map (fun e => e.2)

/-- The placement list written, assignment by assignment and in the same
order, by `setup_initial_position` in board.rs. -/
def initial_placements : List ((Nat × Nat) × Color × Piece) :=
  [((0, 0), Color.Red, Piece.Chariot),
   ((0, 1), Color.Red, Piece.Horse),
   ((0, 2), Color.Red, Piece.Elephant),
   ((0, 3), Color.Red, Piece.Advisor),
   ((0, 4), Color.Red, Piece.General),
   ((0, 5), Color.Red, Piece.Advisor),
   ((0, 6), Color.Red, Piece.Elephant),
   ((0, 7), Color.Red, Piece.Horse),
   ((0, 8), Color.Red, Piece.Chariot),
   ((2, 1), Color.Red, Piece.Cannon),
   ((2, 7), Color.Red, Piece.Cannon),
   ((3, 0), Color.Red, Piece.Soldier),
   ((3, 2), Color.Red, Piece.Soldier),
   ((3, 4), Color.Red, Piece.Soldier),
   ((3, 6), Color.Red, Piece.Soldier),
   ((3, 8), Color.Red, Piece.Soldier),
   ((9, 0), Color.Black, Piece.Chariot),
   ((9, 1), Color.Black, Piece.Horse),
   ((9, 2), Color.Black, Piece.Elephant),
   ((9, 3), Color.Black, Piece.Advisor),
   ((9, 4), Color.Black, Piece.General),
   ((9, 5), Color.Black, Piece.Advisor),
   ((9, 6), Color.Black, Piece.Elephant),
   ((9, 7), Color.Black, Piece.Horse),
   ((9, 8), Color.Black, Piece.Chariot),
   ((7, 1), Color.Black, Piece.Cannon),
   ((7, 7), Color.Black, Piece.Cannon),
   ((6, 0), Color.Black, Piece.Soldier),
   ((6, 2), Color.Black, Piece.Soldier),
   ((6, 4), Color.Black, Piece.Soldier),
   ((6, 6), Color.Black, Piece.Soldier),
   ((6, 8), Color.Black, Piece.Soldier)]

/-- The board produced by `setup_initial_position` in board.rs: the standard
initial placement with Red to move and reset clocks. -/
def initial_position : Board :=
  { squares := squaresOf initial_placements
    red_to_move := true
    halfmove_clock := 0
    fullmove_number := 1 }

/-- One-step/jump destinations with destination check, the common shape of the
General, Advisor and Elephant arms of `generate_piece_moves` in board.rs
(each arm loops over its delta list, bound-checks the target, and pushes it if
it is empty or an enemy; the board.rs Elephant arm has no river or eye
check). -/
def board_simple_moves (b : Board) (pos : Nat × Nat) (c : Color)
    (deltas : List (Int × Int)) : List (Nat × Nat) :=
  deltas.filterMap fun d =>
    match stepPos pos d 1 with
    | some np =>
      match b.squares np.1 np.2 with
      | none => some np
      | some (pc, _) => if pc ≠ c then some np else none
    | none => none

/-- The Horse arm of `generate_piece_moves` in board.rs: an orthogonal step
(only bound-checked, not checked for a blocking piece) followed by each of the
four diagonal steps, keeping bound-checked destinations that are empty or an
enemy.  Note the source imposes no leg-block test and the sixteen sums include
non-knight offsets. -/
def board_horse_moves (b : Board) (pos : Nat × Nat) (c : Color) : List (Nat × Nat) :=
  ([(1, 0), (-1, 0), (0, 1), (0, -1)] : List (Int × Int)).flatMap fun d =>
    match stepPos pos d 1 with
    | none => []
    | some _ =>
      ([(1, 1), (1, -1), (-1, 1), (-1, -1)] : List (Int × Int)).filterMap fun dd =>
        match stepPos pos (d.1 + dd.1, d.2 + dd.2) 1 with
        | some np =>
          match b.squares np.1 np.2 with
          | none => some np
          | some (pc, _) => if pc ≠ c then some np else none
        | none => none

/-- The Chariot arm of `generate_piece_moves` in board.rs along one ray:
pushes every empty square and the first occupied square when it is an enemy,
stopping at the first occupied square. -/
def board_line_scan (b : Board) (c : Color) : List (Nat × Nat) → List (Nat × Nat)
  | [] => []
  | q :: rest =>
    match b.squares q.1 q.2 with
    | none => q :: board_line_scan b c rest
    | some (pc, _) => if pc ≠ c then [q] else []

/-- The Cannon arm of `generate_piece_moves` in board.rs along one ray.  This
arm differs from the moves.rs cannon: before the jump, empty squares are NOT
pushed; only an enemy piece can serve as the screen (a friendly piece stops
the scan); and after the jump, empty squares ARE pushed. -/
def board_cannon_scan (b : Board) (c : Color) (jumped : Bool) :
    List (Nat × Nat) → List (Nat × Nat)
  | [] => []
  | q :: rest =>
    match b.squares q.1 q.2 with
    | none =>
      if jumped then q :: board_cannon_scan b c jumped rest
      else board_cannon_scan b c jumped rest
    | some (pc, _) =>
      if pc ≠ c then
        if jumped then [q] else board_cannon_scan b c true rest
      else []

/-- The Soldier arm of `generate_piece_moves` in board.rs: one forward step
onto an empty square (forward is rank+1 for Red, rank−1 for Black here) plus
diagonal-forward captures of enemy pieces. -/
def board_soldier_moves (b : Board) (pos : Nat × Nat) (c : Color) : List (Nat × Nat) :=
  let forward : Int := match c with | Color.Red => 1 | Color.Black => -1
  (match stepPos pos (forward, 0) 1 with
   | some np => if b.squares np.1 np.2 = none then [np] else []
   | none => []) ++
  ([(forward, 1), (forward, -1)] : List (Int × Int)).filterMap fun d =>
    match stepPos pos d 1 with
    | some np =>
      match b.squares np.1 np.2 with
      | some (pc, _) => if pc ≠ c then some np else none
      | none => none
    | none => none

/-- `generate_piece_moves` from board.rs (the private helper used only by
`is_in_check`; it is a different function from the moves.rs generator of the
same name).  The source unwraps the square, which its callers guarantee to be
occupied; an empty square yields no moves here. -/
def board_generate_piece_moves (b : Board) (pos : Nat × Nat) : List (Nat × Nat) :=
  match b.squares pos.1 pos.2 with
  | none => []
  | some (c, pt) =>
    match pt with
    | Piece.General => board_simple_moves b pos c [(0, 1), (0, -1), (1, 0), (-1, 0)]
    | Piece.Advisor => board_simple_moves b pos c [(1, 1), (1, -1), (-1, 1), (-1, -1)]
    | Piece.Elephant => board_simple_moves b pos c [(2, 2), (2, -2), (-2, 2), (-2, -2)]
    | Piece.Horse => board_horse_moves b pos c
    | Piece.Chariot =>
      ([(1, 0), (-1, 0), (0, 1), (0, -1)] : List (Int × Int)).flatMap fun d =>
        board_line_scan b c (ray pos d)
    | Piece.Cannon =>
      ([(1, 0), (-1, 0), (0, 1), (0, -1)] : List (Int × Int)).flatMap fun d =>
        board_cannon_scan b c false (ray pos d)
    | Piece.Soldier => board_soldier_moves b pos c

/-- The general-locating loop of `is_in_check` in board.rs: per rank it takes
the first matching file and breaks, but the rank loop keeps running, so the
match in the highest rank wins. -/
def find_general (b : Board) (c : Color) : Option (Nat × Nat) :=
  (List.range 10).foldl
    (fun acc rank =>
      match (List.range 9).find?
          (fun file => decide (b.squares rank file = some (c, Piece.General))) with
      | some file => some (rank, file)
      | none => acc)
    none

/-- `is_in_check` from board.rs: locate the General of `c`, then test whether
any opposing piece has the General's square among the moves produced by
board.rs's own `generate_piece_moves`. -/
def is_in_check (b : Board) (c : Color) : Bool :=
  match find_general b c with
  | none => false
  | some g =>
    (List.range 10).any fun rank =>
      (List.range 9).any fun file =>
        match b.squares rank file with
        | some (pc, _) =>
          decide (pc = Color.opp c) &&
            (board_generate_piece_moves b (rank, file)).any (fun mv => mv == g)
        | none => false

/-- The mutation performed by a successful `make_move` in board.rs: the
destination receives the source piece, the source becomes empty (the source
writes the destination first and then clears the source, so a hypothetical
`from = to` call would end empty — the update below clears `from` with the
same priority), and the side to move flips. -/
def moved_board (b : Board) (f t : Nat × Nat) : Board :=
  { b with
    squares := fun r fl =>
      if r = f.1 ∧ fl = f.2 then none
      else if r = t.1 ∧ fl = t.2 then b.squares f.1 f.2
      else b.squares r fl
    red_to_move := !b.red_to_move }

/-- `make_move` from board.rs, with the mutation made explicit: the returned
`Bool` is the Rust return value and the returned `Board` is the state of
`self` afterwards (unchanged on every `false` path). -/
def make_move (b : Board) (f t : Nat × Nat) : Bool × Board :=
  if f.1 ≥ 10 ∨ f.2 ≥ 9 ∨ t.1 ≥ 10 ∨ t.2 ≥ 9 then (false, b)
  else
    match b.squares f.1 f.2 with
    | none => (false, b)
    | some (color, _) =>
      if decide (color = Color.Red) ≠ b.red_to_move then (false, b)
      else
        match b.squares t.1 t.2 with
        | some (dest_color, _) =>
          if dest_color = color then (false, b) else (true, moved_board b f t)
        | none => (true, moved_board b f t)

/-- Modelled from the spec: `Board::is_flying_general`, which evaluation.rs
calls but whose definition is not among the provided sources.  Spec §4.2 and
§3: the two (opposite-colored) Generals share a file with no piece on any
square between them. -/
def is_flying_general (b : Board) : Bool :=
  (List.range 9).any fun f =>
    (List.range 10).any fun r1 =>
      (List.range 10).any fun r2 =>
        decide (r1 < r2) &&
        (match b.squares r1 f, b.squares r2 f with
         | some (c1, Piece.General), some (c2, Piece.General) => decide (c1 ≠ c2)
         | _, _ => false) &&
        ((List.range 10).all fun r =>
          if r1 < r ∧ r < r2 then decide (b.squares r f = none) else true)

/-- Piece-square table lookup; the Rust indexes fixed `[[i32; 9]; 10]`
arrays, always in bounds, which the list `getD` reproduces. -/
def tget (t : List (List Int)) (r f : Nat) : Int :=
  (t.getD r []).getD f 0

/-- `SOLDIER_BONUS_RED` from evaluation.rs. -/
def SOLDIER_BONUS_RED : List (List Int) :=
  [[0, 0, 0, 0, 0, 0, 0, 0, 0],
   [0, 0, 0, 0, 0, 0, 0, 0, 0],
   [0, 0, 0, 0, 0, 0, 0, 0, 0],
   [2, 4, 6, 6, 6, 6, 6, 4, 2],
   [6, 8, 10, 12, 12, 12, 10, 8, 6],
   [10, 12, 14, 16, 18, 16, 14, 12, 10],
   [14, 16, 18, 20, 20, 20, 18, 16, 14],
   [18, 20, 22, 24, 24, 24, 22, 20, 18],
   [22, 24, 26, 28, 28, 28, 26, 24, 22],
   [26, 28, 30, 32, 32, 32, 30, 28, 26]]

/-- `CHARIOT_BONUS` from evaluation.rs. -/
def CHARIOT_BONUS : List (List Int) :=
  [[14, 14, 12, 18, 16, 18, 12, 14, 14],
   [16, 20, 18, 24, 26, 24, 18, 20, 16],
   [12, 12, 12, 18, 18, 18, 12, 12, 12],
   [12, 18, 16, 22, 22, 22, 16, 18, 12],
   [12, 14, 12, 18, 18, 18, 12, 14, 12],
   [12, 16, 14, 20, 20, 20, 14, 16, 12],
   [6, 10, 8, 14, 14, 14, 8, 10, 6],
   [4, 8, 6, 14, 12, 14, 6, 8, 4],
   [8, 4, 8, 16, 8, 16, 8, 4, 8],
   [-2, 10, 6, 14, 12, 14, 6, 10, -2]]

/-- `HORSE_BONUS` from evaluation.rs. -/
def HORSE_BONUS : List (List Int) :=
  [[4, 8, 16, 12, 4, 12, 16, 8, 4],
   [4, 10, 28, 16, 8, 16, 28, 10, 4],
   [12, 14, 16, 20, 18, 20, 16, 14, 12],
   [8, 24, 18, 24, 20, 24, 18, 24, 8],
   [6, 16, 14, 18, 16, 18, 14, 16, 6],
   [4, 12, 16, 14, 12, 14, 16, 12, 4],
   [2, 6, 8, 6, 10, 6, 8, 6, 2],
   [-2, 4, 4, 4, 4, 4, 4, 4, -2],
   [0, 2, 4, 4, -2, 4, 4, 2, 0],
   [0, -4, 0, 0, 0, 0, 0, -4, 0]]

/-- `CANNON_BONUS` from evaluation.rs. -/
def CANNON_BONUS : List (List Int) :=
  [[6, 4, 0, -10, -12, -10, 0, 4, 6],
   [2, 2, 0, -4, -14, -4, 0, 2, 2],
   [2, 2, 0, -10, -8, -10, 0, 2, 2],
   [0, 0, -2, 4, 10, 4, -2, 0, 0],
   [0, 0, 0, 2, 8, 2, 0, 0, 0],
   [-2, 0, 4, 2, 6, 2, 4, 0, -2],
   [0, 0, 0, 2, 4, 2, 0, 0, 0],
   [4, 0, 8, 6, 10, 6, 8, 0, 4],
   [0, 2, 4, 6, 6, 6, 4, 2, 0],
   [0, 0, 2, 6, 6, 6, 2, 0, 0]]

/-- `ADVISOR_BONUS` from evaluation.rs. -/
def ADVISOR_BONUS : List (List Int) :=
  [[0, 0, 0, 0, 0, 0, 0, 0, 0],
   [0, 0, 0, 0, 0, 0, 0, 0, 0],
   [0, 0, 0, 0, 0, 0, 0, 0, 0],
   [0, 0, 0, 0, 0, 0, 0, 0, 0],
   [0, 0, 0, 0, 0, 0, 0, 0, 0],
   [0, 0, 0, 0, 0, 0, 0, 0, 0],
   [0, 0, 0, 0, 0, 0, 0, 0, 0],
   [0, 0, 0, 20, 0, 20, 0, 0, 0],
   [0, 0, 0, 0, 23, 0, 0, 0, 0],
   [0, 0, 0, 20, 0, 20, 0, 0, 0]]

/-- `ELEPHANT_BONUS` from evaluation.rs. -/
def ELEPHANT_BONUS : List (List Int) :=
  [[0, 0, 0, 0, 0, 0, 0, 0, 0],
   [0, 0, 0, 0, 0, 0, 0, 0, 0],
   [0, 0, 0, 0, 0, 0, 0, 0, 0],
   [0, 0, 0, 0, 0, 0, 0, 0, 0],
   [0, 0, 0, 0, 0, 0, 0, 0, 0],
   [0, 0, 20, 0, 0, 0, 20, 0, 0],
   [0, 0, 0, 0, 0, 0, 0, 0, 0],
   [18, 0, 0, 0, 23, 0, 0, 0, 18],
   [0, 0, 0, 0, 0, 0, 0, 0, 0],
   [0, 0, 20, 0, 0, 0, 20, 0, 0]]

/-- The unsigned value of a piece on a square (material constant plus
piece-square bonus, the bonus row vertically flipped for Black), from the
material loop of `evaluate_position` in evaluation.rs. -/
def piece_square_value (p : Piece) (c : Color) (rank file : Nat) : Int :=
  let r := if c = Color.Red then rank else 9 - rank
  match p with
  | Piece.Soldier => 30 + tget SOLDIER_BONUS_RED r file
  | Piece.Cannon => 285 + tget CANNON_BONUS r file
  | Piece.Horse => 270 + tget HORSE_BONUS r file
  | Piece.Elephant => 120 + tget ELEPHANT_BONUS r file
  | Piece.Advisor => 120 + tget ADVISOR_BONUS r file
  | Piece.Chariot => 600 + tget CHARIOT_BONUS r file
  | Piece.General => 6000

/-- All 90 squares of the board, in the rank-major order of every scanning
loop in the source. -/
def all_squares : List (Nat × Nat) :=
  (List.range 10).flatMap fun r => (List.range 9).map fun f => (r, f)

/-- The material-and-piece-square sum of `evaluate_position`: Red pieces add
their value, Black pieces subtract it. -/
def materialTerm (b : Board) : Int :=
  all_squares.foldl
    (fun s q =>
      match b.squares q.1 q.2 with
      | some (c, p) =>
        s + (if c = Color.Red then piece_square_value p c q.1 q.2
             else -(piece_square_value p c q.1 q.2))
      | none => s)
    0

/-- The number of pieces of color `c` on the board, as counted by the
material loop of `evaluate_position`. -/
def colorCount (b : Board) (c : Color) : Nat :=
  all_squares.countP fun q =>
    match b.squares q.1 q.2 with
    | some (pc, _) => pc = c
    | none => false

/-- The endgame adjustment of `evaluate_position`: when at most 12 pieces
remain, each Red Soldier adds 10 and each Black Soldier subtracts 10. -/
def endgameTerm (b : Board) : Int :=
  if colorCount b Color.Red + colorCount b Color.Black ≤ 12 then
    all_squares.foldl
      (fun s q =>
        match b.squares q.1 q.2 with
        | some (c, Piece.Soldier) => s + (if c = Color.Red then 10 else -10)
        | _ => s)
      0
  else 0

/-- The mobility term of `evaluate_position`: five points per generated move
of the side to move, added for Red and subtracted for Black (the saturating
arithmetic of the source cannot saturate at these magnitudes). -/
def mobilityTerm (b : Board) : Int :=
  let bonus : Int := (generate_legal_moves b).length * 5
  if b.red_to_move then bonus else -bonus

/-- `find_king` from evaluation.rs: the first square, in rank-major order,
holding the General of `c`. -/
def find_king (b : Board) (c : Color) : Option (Nat × Nat) :=
  (all_squares.find? fun q => decide (b.squares q.1 q.2 = some (c, Piece.General)))

/-- `evaluate_king_safety` from evaluation.rs: 15 per own Advisor or Elephant
in the own-side palace block, minus 10 per rank the General has strayed past
rank 7 (Red) or before rank 2 (Black). -/
def evaluate_king_safety (b : Board) (king_pos : Nat × Nat) (c : Color) : Int :=
  let ranks : List Nat := if c = Color.Red then [7, 8, 9] else [0, 1, 2]
  let protector_count : Nat :=
    (ranks.flatMap fun r => ([3, 4, 5] : List Nat).map fun f => (r, f)).countP
      fun q =>
        match b.squares q.1 q.2 with
        | some (pc, Piece.Advisor) => pc = c
        | some (pc, Piece.Elephant) => pc = c
        | _ => false
  let exposed_penalty : Int :=
    if c = Color.Red then
      if king_pos.1 ≤ 7 then 0 else ((king_pos.1 - 7 : Nat) : Int) * 10
    else
      if king_pos.1 ≥ 2 then ((king_pos.1 - 2 : Nat) : Int) * 10 else 0
  (protector_count : Int) * 15 - exposed_penalty

/-- The king-safety contribution of `evaluate_position`: Red's safety added,
Black's subtracted, each only when the respective General is found. -/
def kingSafetyTerm (b : Board) : Int :=
  (match find_king b Color.Red with
   | some kp => evaluate_king_safety b kp Color.Red
   | none => 0) -
  (match find_king b Color.Black with
   | some kp => evaluate_king_safety b kp Color.Black
   | none => 0)

/-- `find_general_files` from evaluation.rs: the file of each color's
General, later squares in rank-major order overwriting earlier ones. -/
def find_general_files (b : Board) : Option Nat × Option Nat :=
  all_squares.foldl
    (fun acc q =>
      match b.squares q.1 q.2 with
      | some (Color.Red, Piece.General) => (some q.2, acc.2)
      | some (Color.Black, Piece.General) => (acc.1, some q.2)
      | _ => acc)
    (none, none)

/-- The −50 same-file penalty of `evaluate_position` (applied whenever both
Generals are found on a common file, screened or not). -/
def sameFilePenalty (b : Board) : Int :=
  match find_general_files b with
  | (some rf, some bf) => if rf = bf then -50 else 0
  | _ => 0

/-- The Red-perspective score accumulated by `evaluate_position` before its
final side-to-move negation: same-file penalty, material with piece-square
tables, endgame soldier adjustment, signed mobility, and king safety, in the
order the source adds them. -/
def redPerspectiveScore (b : Board) : Int :=
  sameFilePenalty b + materialTerm b + endgameTerm b + mobilityTerm b + kingSafetyTerm b

/-- `evaluate_position` from evaluation.rs: the flying-general early return,
then the accumulated score, negated when Black is to move. -/
def evaluate_position (b : Board) : Int :=
  if is_flying_general b then (if b.red_to_move then -50000 else 50000)
  else
    let score := redPerspectiveScore b
    if !b.red_to_move then -score else score

/-- `SEE_PIECE_VALUES` from search.rs. -/
def SEE_PIECE_VALUES : List Int := [0, 100, 450, 450, 650, 900, 10000]

/-- `get_piece_value_for_see` from search.rs. -/
def get_piece_value_for_see (p : Piece) : Nat :=
  match p with
  | Piece.Soldier => 1
  | Piece.Horse => 2
  | Piece.Elephant => 3
  | Piece.Chariot => 4
  | Piece.Cannon => 5
  | Piece.Advisor => 2
  | Piece.General => 6

/-- The SEE value of a piece: `SEE_PIECE_VALUES[get_piece_value_for_see(p)]`. -/
def seeVal (p : Piece) : Int :=
  SEE_PIECE_VALUES.getD (get_piece_value_for_see p) 0

/-- `see` from search.rs.  The source fills a `gain` array: `gain[0]` is the
victim value; when the attacker is worth more it subtracts the attacker value
from `gain[0]`, returns `gain[0]` if that is below −500, and otherwise
returns `-gain[depth - 1]`, i.e. attacker value minus victim value (the write
to `gain[1]` is dead).  Returns 0 when either square is empty. -/
def see (b : Board) (mv : Move) : Int :=
  match b.squares mv.toSq.1 mv.toSq.2 with
  | none => 0
  | some (_, target_piece) =>
    match b.squares mv.fromSq.1 mv.fromSq.2 with
    | none => 0
    | some (_, attacker_piece) =>
      let av := seeVal attacker_piece
      let tv := seeVal target_piece
      if av ≤ tv then tv
      else
        let gain0 := tv - av
        if gain0 < -500 then gain0
        else av - tv

/-- `MVV_LVA_SCORES` from search.rs (comments in the source label row 0 as
"Victim Pawn", although `get_piece_value_for_see` maps the Soldier to
index 1). -/
def MVV_LVA_SCORES : List (List Int) :=
  [[105, 205, 305, 405, 505, 605, 705],
   [104, 204, 304, 404, 504, 604, 704],
   [103, 203, 303, 403, 503, 603, 703],
   [102, 202, 302, 402, 502, 602, 702],
   [101, 201, 301, 401, 501, 601, 701],
   [100, 200, 300, 400, 500, 600, 700],
   [100, 200, 300, 400, 500, 600, 700]]

/-- The per-move ordering score computed inside `sort_moves` in search.rs.
The killer and history inputs live in `SearchInfo`; here the two killer slots
for the current ply are passed directly and `hist` is the history-table entry
for this move, so "all other ordering terms equal" is expressed by passing
equal arguments. -/
def moveOrderScore (b : Board) (tt_move killer1 killer2 : Option Move)
    (hist : Int) (mv : Move) : Int :=
  (if tt_move = some mv then 20000 else 0) +
  (match b.squares mv.toSq.1 mv.toSq.2 with
   | some (_, victim_piece) =>
     match b.squares mv.fromSq.1 mv.fromSq.2 with
     | some (_, attacker_piece) =>
       tget MVV_LVA_SCORES (get_piece_value_for_see victim_piece)
         (get_piece_value_for_see attacker_piece) + see b mv
     | none => 0
   | none => 0) +
  (if killer1 = some mv then 9000 else 0) +
  (if killer2 = some mv then 8000 else 0) +
  hist

/-- A square is on the 10×9 board. -/
def in_bounds (q : Nat × Nat) : Prop := q.1 < 10 ∧ q.2 < 9

/-- A square that does not hold a piece of color `c`: empty or enemy. -/
def enemy_or_empty (b : Board) (c : Color) (q : Nat × Nat) : Prop :=
  ∀ c2 p2, b.squares q.1 q.2 = some (c2, p2) → c2 ≠ c

/-- The destination condition every generated move satisfies: in bounds, and
not a square holding a piece of the moving color. -/
def dest_ok (b : Board) (c : Color) (q : Nat × Nat) : Prop :=
  q.1 < 10 ∧ q.2 < 9 ∧ enemy_or_empty b c q

/-- The rejection condition of `make_move` as the specification states it:
a coordinate out of range, an empty source, a source piece that is not the
side to move, or a same-color destination. -/
def move_rejected (b : Board) (f t : Nat × Nat) : Bool :=
  decide (f.1 ≥ 10 ∨ f.2 ≥ 9 ∨ t.1 ≥ 10 ∨ t.2 ≥ 9) ||
  (match b.squares f.1 f.2 with
   | none => true
   | some (c, _) =>
     (decide (c = Color.Red) != b.red_to_move) ||
     (match b.squares t.1 t.2 with
      | some (c2, _) => decide (c2 = c)
      | none => false))

/-- The number of occupied squares among `l`, used to state the cannon-screen
property ("exactly one occupied intervening square"). -/
def occ_count (b : Board) (l : List (Nat × Nat)) : Nat :=
  (l.filter fun q => (b.squares q.1 q.2).isSome).length

/-- Position for the `is_in_check` claim: the Black Cannon on file 4 attacks
the Red General over a friendly (Black) screen.  The moves.rs generator
produces the capture (4,4)→(0,4); the board.rs generator inside `is_in_check`
rejects friendly screens, so `is_in_check` misses the attack. -/
def c2_board : Board :=
  { squares := squaresOf
      [((0, 4), Color.Red, Piece.General),
       ((2, 4), Color.Black, Piece.Soldier),
       ((4, 4), Color.Black, Piece.Cannon),
       ((9, 4), Color.Black, Piece.General)]
    red_to_move := false
    halfmove_clock := 0
    fullmove_number := 1 }

/-- Position for the evaluation-perspective claim: a bare Red Chariot
advantage with Black to move. -/
def c3_board : Board :=
  { squares := squaresOf
      [((0, 4), Color.Red, Piece.General),
       ((9, 3), Color.Black, Piece.General),
       ((5, 0), Color.Red, Piece.Chariot)]
    red_to_move := false
    halfmove_clock := 0
    fullmove_number := 1 }

/-- Position for the flying-general claim: the two Generals face each other
on file 4 with nothing between, Red to move. -/
def c4_board : Board :=
  { squares := squaresOf
      [((0, 4), Color.Red, Piece.General),
       ((9, 4), Color.Black, Piece.General)]
    red_to_move := true
    halfmove_clock := 0
    fullmove_number := 1 }

/-- Position for the SEE claim: a Red Horse ready to capture a Black
Soldier. -/
def c5_board : Board :=
  { squares := squaresOf
      [((0, 0), Color.Red, Piece.Horse),
       ((0, 1), Color.Black, Piece.Soldier)]
    red_to_move := true
    halfmove_clock := 0
    fullmove_number := 1 }

/-- Position for the move-ordering claim.  The Red Cannon on (4,4) can
capture, over screens, the Black Chariot on (4,2) and the Black Horse on
(4,6); the Black Soldier on (1,1) can be captured by the Red Soldier on
(2,1) and by the Red Horse on (3,2).  All four captures are generated
moves. -/
def c6_board : Board :=
  { squares := squaresOf
      [((4, 4), Color.Red, Piece.Cannon),
       ((4, 3), Color.Red, Piece.Soldier),
       ((4, 5), Color.Red, Piece.Soldier),
       ((4, 2), Color.Black, Piece.Chariot),
       ((4, 6), Color.Black, Piece.Horse),
       ((2, 1), Color.Red, Piece.Soldier),
       ((1, 1), Color.Black, Piece.Soldier),
       ((3, 2), Color.Red, Piece.Horse),
       ((9, 4), Color.Red, Piece.General),
       ((0, 4), Color.Black, Piece.General)]
    red_to_move := true
    halfmove_clock := 0
    fullmove_number := 1 }

/-- Position for the cannon-rule witness, from spec §8 scenario 2: Red Cannon
at (0,1), Black Soldier screen at (3,1), Black Chariot at (5,1). -/
def c8_board : Board :=
  { squares := squaresOf
      [((0, 1), Color.Red, Piece.Cannon),
       ((3, 1), Color.Black, Piece.Soldier),
       ((5, 1), Color.Black, Piece.Chariot),
       ((0, 4), Color.Red, Piece.General),
       ((9, 3), Color.Black, Piece.General)]
    red_to_move := true
    halfmove_clock := 0
    fullmove_number := 1 }

/-- Membership in a conditional singleton list yields the condition and the
equality. -/
theorem mem_if_singleton {α : Type} {p : Prop} [Decidable p] {x q : α}
    (h : q ∈ (if p then [x] else [])) : p ∧ q = x := by
  by_cases hp : p
  · rw [if_pos hp] at h
    simp only [List.mem_singleton] at h
    exact ⟨hp, h⟩
  · rw [if_neg hp] at h
    simp at h

/-- Every square of a ray is on the board. -/
theorem ray_mem_bounds {pos : Nat × Nat} {d : Int × Int} {q : Nat × Nat}
    (h : q ∈ ray pos d) : q.1 < 10 ∧ q.2 < 9 := by
  unfold ray at h
  rw [List.mem_filterMap] at h
  obtain ⟨k, _, hk⟩ := h
  unfold stepPos at hk
  split at hk
  · rename_i hb
    obtain ⟨h1, h2, h3, h4⟩ := hb
    injection hk with hk
    subst hk
    dsimp only
    push_cast at h1 h2 h3 h4 ⊢
    exact ⟨by omega, by omega⟩
  · cases hk

/-- `occ_count` over an empty list. -/
theorem occ_count_nil (b : Board) : occ_count b [] = 0 := rfl

/-- `occ_count` over a cons. -/
theorem occ_count_cons (b : Board) (q : Nat × Nat) (l : List (Nat × Nat)) :
    occ_count b (q :: l) =
      (if (b.squares q.1 q.2).isSome then 1 else 0) + occ_count b l := by
  unfold occ_count
  rw [List.filter_cons]
  split
  · simp [Nat.add_comm]
  · simp

/-- Shape of the moves produced by the chariot scan: they start at `pos`,
land on a square of the scanned ray, and never land on a friendly piece. -/
theorem chariotScan_mem {b : Board} {c : Color} {pos : Nat × Nat} :
    ∀ {l : List (Nat × Nat)} {mv : Move}, mv ∈ chariotScan b c pos l →
      mv.fromSq = pos ∧ mv.toSq ∈ l ∧ enemy_or_empty b c mv.toSq := by
  intro l
  induction l with
  | nil => intro mv h; simp [chariotScan] at h
  | cons q rest ih =>
    intro mv h
    rw [chariotScan] at h
    split at h
    · rename_i hsq
      rw [List.mem_cons] at h
      rcases h with h | h
      · subst h
        refine ⟨rfl, List.mem_cons_self q rest, ?_⟩
        intro c2 p2 hc2
        rw [hsq] at hc2
        cases hc2
      · obtain ⟨h1, h2, h3⟩ := ih h
        exact ⟨h1, List.mem_cons_of_mem q h2, h3⟩
    · rename_i pc p hsq
      split at h
      · rename_i hne
        rw [List.mem_singleton] at h
        subst h
        refine ⟨rfl, List.mem_cons_self q rest, ?_⟩
        intro c2 p2 hc2
        rw [hsq] at hc2
        injection hc2 with hc2
        cases hc2
        exact hne
      · simp at h

/-- Shape of the moves produced by the cannon scan (either phase): they start
at `pos`, land on a square of the scanned ray, and never land on a friendly
piece. -/
theorem cannonScan_mem {b : Board} {c : Color} {pos : Nat × Nat} :
    ∀ {l : List (Nat × Nat)} {fl : Bool} {mv : Move}, mv ∈ cannonScan b c pos fl l →
      mv.fromSq = pos ∧ mv.toSq ∈ l ∧ enemy_or_empty b c mv.toSq := by
  intro l
  induction l with
  | nil => intro fl mv h; cases fl <;> simp [cannonScan] at h
  | cons q rest ih =>
    intro fl mv h
    cases fl
    · rw [cannonScan] at h
      split at h
      · rw [List.mem_cons] at h
        rename_i hsq
        rcases h with h | h
        · subst h
          refine ⟨rfl, List.mem_cons_self q rest, ?_⟩
          intro c2 p2 hc2
          rw [hsq] at hc2
          cases hc2
        · obtain ⟨h1, h2, h3⟩ := ih h
          exact ⟨h1, List.mem_cons_of_mem q h2, h3⟩
      · obtain ⟨h1, h2, h3⟩ := ih h
        exact ⟨h1, List.mem_cons_of_mem q h2, h3⟩
    · rw [cannonScan] at h
      split at h
      · obtain ⟨h1, h2, h3⟩ := ih h
        exact ⟨h1, List.mem_cons_of_mem q h2, h3⟩
      · rename_i pc p hsq
        split at h
        · rename_i hne
          rw [List.mem_singleton] at h
          subst h
          refine ⟨rfl, List.mem_cons_self q rest, ?_⟩
          intro c2 p2 hc2
          rw [hsq] at hc2
          injection hc2 with hc2
          cases hc2
          exact hne
        · simp at h

/-- Palace squares of the General are on the board. -/
theorem general_palace_bounds (c : Color) :
    ∀ q ∈ general_palace c, q.1 < 10 ∧ q.2 < 9 := by
  cases c <;> decide

/-- Palace squares of the Advisor are on the board. -/
theorem advisor_palace_bounds (c : Color) :
    ∀ q ∈ advisor_palace c, q.1 < 10 ∧ q.2 < 9 := by
  cases c <;> decide

/-- Every generated General move starts at `pos` and has an admissible
destination. -/
theorem generate_general_moves_mem {b : Board} {pos : Nat × Nat} {c : Color}
    {mv : Move} (h : mv ∈ generate_general_moves b pos c) :
    mv.fromSq = pos ∧ dest_ok b c mv.toSq := by
  rw [generate_general_moves, List.mem_filterMap] at h
  obtain ⟨q, hq, hf⟩ := h
  obtain ⟨hb1, hb2⟩ := general_palace_bounds c q hq
  split at hf
  · split at hf
    · rename_i pc p hsq
      split at hf
      · rename_i hne
        injection hf with hf
        subst hf
        refine ⟨rfl, hb1, hb2, ?_⟩
        intro c2 p2 hc2
        rw [hsq] at hc2
        injection hc2 with hc2
        cases hc2
        exact hne
      · cases hf
    · rename_i hsq
      injection hf with hf
      subst hf
      refine ⟨rfl, hb1, hb2, ?_⟩
      intro c2 p2 hc2
      rw [hsq] at hc2
      cases hc2
  · cases hf

/-- Every generated Advisor move starts at `pos` and has an admissible
destination. -/
theorem generate_advisor_moves_mem {b : Board} {pos : Nat × Nat} {c : Color}
    {mv : Move} (h : mv ∈ generate_advisor_moves b pos c) :
    mv.fromSq = pos ∧ dest_ok b c mv.toSq := by
  rw [generate_advisor_moves, List.mem_filterMap] at h
  obtain ⟨q, hq, hf⟩ := h
  obtain ⟨hb1, hb2⟩ := advisor_palace_bounds c q hq
  split at hf
  · split at hf
    · rename_i pc p hsq
      split at hf
      · rename_i hne
        injection hf with hf
        subst hf
        refine ⟨rfl, hb1, hb2, ?_⟩
        intro c2 p2 hc2
        rw [hsq] at hc2
        injection hc2 with hc2
        cases hc2
        exact hne
      · cases hf
    · rename_i hsq
      injection hf with hf
      subst hf
      refine ⟨rfl, hb1, hb2, ?_⟩
      intro c2 p2 hc2
      rw [hsq] at hc2
      cases hc2
  · cases hf

/-- The soldier candidate squares stay on the board when `pos` is on the
board. -/
theorem soldier_candidates_bounds {pos : Nat × Nat} {c : Color}
    (h1 : pos.1 < 10) (h2 : pos.2 < 9) :
    ∀ q ∈ soldier_candidates pos c, q.1 < 10 ∧ q.2 < 9 := by
  intro q hq
  cases c <;> rw [soldier_candidates] at hq <;>
    rcases List.mem_append.mp hq with h | h
  · obtain ⟨hc, rfl⟩ := mem_if_singleton h
    exact ⟨by omega, by omega⟩
  · by_cases hr : pos.1 < 5
    · rw [if_pos hr] at h
      rcases List.mem_append.mp h with h | h <;>
        obtain ⟨hc, rfl⟩ := mem_if_singleton h <;> exact ⟨by omega, by omega⟩
    · rw [if_neg hr] at h
      simp at h
  · obtain ⟨hc, rfl⟩ := mem_if_singleton h
    exact ⟨by omega, by omega⟩
  · by_cases hr : pos.1 > 4
    · rw [if_pos hr] at h
      rcases List.mem_append.mp h with h | h <;>
        obtain ⟨hc, rfl⟩ := mem_if_singleton h <;> exact ⟨by omega, by omega⟩
    · rw [if_neg hr] at h
      simp at h

/-- Every generated Soldier move starts at `pos` and has an admissible
destination. -/
theorem generate_soldier_moves_mem {b : Board} {pos : Nat × Nat} {c : Color}
    {mv : Move} (h1 : pos.1 < 10) (h2 : pos.2 < 9)
    (h : mv ∈ generate_soldier_moves b pos c) :
    mv.fromSq = pos ∧ dest_ok b c mv.toSq := by
  rw [generate_soldier_moves, List.mem_filterMap] at h
  obtain ⟨q, hq, hf⟩ := h
  obtain ⟨hb1, hb2⟩ := soldier_candidates_bounds h1 h2 q hq
  split at hf
  · rename_i pc p hsq
    split at hf
    · rename_i hne
      injection hf with hf
      subst hf
      refine ⟨rfl, hb1, hb2, ?_⟩
      intro c2 p2 hc2
      rw [hsq] at hc2
      injection hc2 with hc2
      cases hc2
      exact hne
    · cases hf
  · rename_i hsq
    injection hf with hf
    subst hf
    refine ⟨rfl, hb1, hb2, ?_⟩
    intro c2 p2 hc2
    rw [hsq] at hc2
    cases hc2

/-- The horse candidate squares stay on the board when `pos` is on the
board. -/
theorem horse_candidates_bounds {pos : Nat × Nat}
    (h1 : pos.1 < 10) (h2 : pos.2 < 9) :
    ∀ q ∈ horse_candidates pos, q.1 < 10 ∧ q.2 < 9 := by
  intro q hq
  rw [horse_candidates] at hq
  rcases List.mem_append.mp hq with h | h
  rcases List.mem_append.mp h with h | h
  rcases List.mem_append.mp h with h | h
  rcases List.mem_append.mp h with h | h
  rcases List.mem_append.mp h with h | h
  rcases List.mem_append.mp h with h | h
  rcases List.mem_append.mp h with h | h
  all_goals obtain ⟨hc, rfl⟩ := mem_if_singleton h
  all_goals exact ⟨by omega, by omega⟩

/-- Every generated Horse move starts at `pos` and has an admissible
destination. -/
theorem generate_horse_moves_mem {b : Board} {pos : Nat × Nat} {c : Color}
    {mv : Move} (h1 : pos.1 < 10) (h2 : pos.2 < 9)
    (h : mv ∈ generate_horse_moves b pos c) :
    mv.fromSq = pos ∧ dest_ok b c mv.toSq := by
  rw [generate_horse_moves, List.mem_filterMap] at h
  obtain ⟨q, hq, hf⟩ := h
  obtain ⟨hb1, hb2⟩ := horse_candidates_bounds h1 h2 q hq
  split at hf
  · split at hf
    · rename_i pc p hsq
      split at hf
      · rename_i hne
        injection hf with hf
        subst hf
        refine ⟨rfl, hb1, hb2, ?_⟩
        intro c2 p2 hc2
        rw [hsq] at hc2
        injection hc2 with hc2
        cases hc2
        exact hne
      · cases hf
    · rename_i hsq
      injection hf with hf
      subst hf
      refine ⟨rfl, hb1, hb2, ?_⟩
      intro c2 p2 hc2
      rw [hsq] at hc2
      cases hc2
  · cases hf

/-- Every move produced by `add_elephant_move` goes from `pos` to `np` and
has an admissible destination square. -/
theorem add_elephant_move_mem {b : Board} {pos np : Nat × Nat} {c : Color}
    {mv : Move} (h : mv ∈ add_elephant_move b pos np c) :
    mv = Move.mk pos np ∧ enemy_or_empty b c np := by
  rw [add_elephant_move] at h
  split at h
  · split at h
    · split at h
      · rename_i pc p hsq
        split at h
        · rename_i hne
          rw [List.mem_singleton] at h
          subst h
          refine ⟨rfl, ?_⟩
          intro c2 p2 hc2
          rw [hsq] at hc2
          injection hc2 with hc2
          cases hc2
          exact hne
        · simp at h
      · rename_i hsq
        rw [List.mem_singleton] at h
        subst h
        refine ⟨rfl, ?_⟩
        intro c2 p2 hc2
        rw [hsq] at hc2
        cases hc2
    · simp at h
  · simp at h

/-- Every generated Elephant move starts at `pos` and has an admissible
destination. -/
theorem generate_elephant_moves_mem {b : Board} {pos : Nat × Nat} {c : Color}
    {mv : Move} (h1 : pos.1 < 10) (h2 : pos.2 < 9)
    (h : mv ∈ generate_elephant_moves b pos c) :
    mv.fromSq = pos ∧ dest_ok b c mv.toSq := by
  rw [generate_elephant_moves] at h
  rcases List.mem_append.mp h with h | h
  · rcases List.mem_append.mp h with h | h
    · rcases List.mem_append.mp h with h | h
      · by_cases hc : pos.1 + 2 ≤ 9 ∧ pos.2 + 2 ≤ 8
        · rw [if_pos hc] at h
          obtain ⟨rfl, hok⟩ := add_elephant_move_mem h
          exact ⟨rfl, by dsimp only; omega, by dsimp only; omega, hok⟩
        · rw [if_neg hc] at h
          simp at h
      · by_cases hc : pos.1 + 2 ≤ 9 ∧ pos.2 ≥ 2
        · rw [if_pos hc] at h
          obtain ⟨rfl, hok⟩ := add_elephant_move_mem h
          exact ⟨rfl, by dsimp only; omega, by dsimp only; omega, hok⟩
        · rw [if_neg hc] at h
          simp at h
    · by_cases hc : pos.1 ≥ 2 ∧ pos.2 + 2 ≤ 8
      · rw [if_pos hc] at h
        obtain ⟨rfl, hok⟩ := add_elephant_move_mem h
        exact ⟨rfl, by dsimp only; omega, by dsimp only; omega, hok⟩
      · rw [if_neg hc] at h
        simp at h
  · by_cases hc : pos.1 ≥ 2 ∧ pos.2 ≥ 2
    · rw [if_pos hc] at h
      obtain ⟨rfl, hok⟩ := add_elephant_move_mem h
      exact ⟨rfl, by dsimp only; omega, by dsimp only; omega, hok⟩
    · rw [if_neg hc] at h
      simp at h

/-- Every generated Chariot move starts at `pos` and has an admissible
destination. -/
theorem generate_chariot_moves_mem {b : Board} {pos : Nat × Nat} {c : Color}
    {mv : Move} (h : mv ∈ generate_chariot_moves b pos c) :
    mv.fromSq = pos ∧ dest_ok b c mv.toSq := by
  rw [generate_chariot_moves, List.mem_flatMap] at h
  obtain ⟨d, _, h⟩ := h
  obtain ⟨h1, h2, h3⟩ := chariotScan_mem h
  obtain ⟨hb1, hb2⟩ := ray_mem_bounds h2
  exact ⟨h1, hb1, hb2, h3⟩

/-- Every generated Cannon move starts at `pos` and has an admissible
destination. -/
theorem generate_cannon_moves_mem {b : Board} {pos : Nat × Nat} {c : Color}
    {mv : Move} (h : mv ∈ generate_cannon_moves b pos c) :
    mv.fromSq = pos ∧ dest_ok b c mv.toSq := by
  rw [generate_cannon_moves, List.mem_flatMap] at h
  obtain ⟨d, _, h⟩ := h
  obtain ⟨h1, h2, h3⟩ := cannonScan_mem h
  obtain ⟨hb1, hb2⟩ := ray_mem_bounds h2
  exact ⟨h1, hb1, hb2, h3⟩

/-- Every move produced by the moves.rs per-piece dispatcher for a piece of
color `c` starts at `pos` and has an admissible destination. -/
theorem generate_piece_moves_mem {b : Board} {pos : Nat × Nat} {c : Color}
    {pt : Piece} {mv : Move} (h1 : pos.1 < 10) (h2 : pos.2 < 9)
    (hsq : b.squares pos.1 pos.2 = some (c, pt))
    (h : mv ∈ generate_piece_moves b pos) :
    mv.fromSq = pos ∧ dest_ok b c mv.toSq := by
  rw [generate_piece_moves, hsq] at h
  cases pt
  · exact generate_soldier_moves_mem h1 h2 h
  · exact generate_horse_moves_mem h1 h2 h
  · exact generate_elephant_moves_mem h1 h2 h
  · exact generate_chariot_moves_mem h
  · exact generate_cannon_moves_mem h
  · exact generate_advisor_moves_mem h
  · exact generate_general_moves_mem h

/-- Decomposition of membership in `generate_legal_moves`: the move was
produced by some piece of the side to move, on a board square. -/
theorem generate_legal_moves_mem {b : Board} {mv : Move}
    (h : mv ∈ generate_legal_moves b) :
    ∃ r f pt, r < 10 ∧ f < 9 ∧ b.squares r f = some (side_color b, pt) ∧
      mv ∈ generate_piece_moves b (r, f) := by
  rw [generate_legal_moves, List.mem_flatMap] at h
  obtain ⟨r, hr, h⟩ := h
  rw [List.mem_flatMap] at h
  obtain ⟨f, hf, h⟩ := h
  rw [List.mem_range] at hr hf
  split at h
  · rename_i pc pt hsq
    split at h
    · rename_i hpc
      exact ⟨r, f, pt, hr, hf, by rw [hsq, hpc], h⟩
    · simp at h
  · simp at h

/-- `make_move` succeeds whenever the coordinates are on the board, the
source holds a piece of the side to move, and the destination is empty or an
enemy square. -/
theorem make_move_success {b : Board} {f t : Nat × Nat} {c : Color} {pt : Piece}
    (hf1 : f.1 < 10) (hf2 : f.2 < 9) (ht1 : t.1 < 10) (ht2 : t.2 < 9)
    (hsrc : b.squares f.1 f.2 = some (c, pt))
    (hcol : decide (c = Color.Red) = b.red_to_move)
    (hdst : enemy_or_empty b c t) :
    (make_move b f t).1 = true := by
  rw [make_move, if_neg (by omega), hsrc]
  dsimp only
  rw [if_neg (by rw [hcol]; exact fun hne => hne rfl)]
  cases hd : b.squares t.1 t.2 with
  | none => rfl
  | some pr =>
    obtain ⟨c2, p2⟩ := pr
    dsimp only
    rw [if_neg (hdst c2 p2 hd)]

/-- The side-to-move color always satisfies the turn check of `make_move`. -/
theorem side_color_decide (b : Board) :
    decide (side_color b = Color.Red) = b.red_to_move := by
  cases hb : b.red_to_move <;> simp [side_color, hb]

/-- C9: For every board B and every move m in generate_legal_moves(B),
applying make_move(B, m.from, m.to) succeeds (returns true): every generated
move has in-range coordinates, a source square holding a piece of the side to
move, and a destination that is empty or enemy-occupied, so the rejection
branches of make_move are unreachable for generated moves. -/
theorem c9_generated_moves_always_apply (b : Board) (mv : Move)
    (h : mv ∈ generate_legal_moves b) :
    (make_move b mv.fromSq mv.toSq).1 = true := by
  obtain ⟨r, f, pt, hr, hf, hsq, hmem⟩ := generate_legal_moves_mem h
  obtain ⟨hfrom, ht1, ht2, hok⟩ := generate_piece_moves_mem hr hf hsq hmem
  rw [hfrom]
  exact make_move_success hr hf ht1 ht2 hsq (side_color_decide b) hok

/-- Witness for C9 at a concrete input: the first generated move of the
initial position is accepted by `make_move`. -/
theorem c9_generated_moves_always_apply_witness :
    (make_move initial_position
      (Move.mk (0, 0) (1, 0)).fromSq (Move.mk (0, 0) (1, 0)).toSq).1 = true :=
  c9_generated_moves_always_apply initial_position (Move.mk (0, 0) (1, 0))
    (by decide)

/-- The source square is cleared by the board mutation. -/
theorem moved_board_from (b : Board) (f t : Nat × Nat) :
    (moved_board b f t).squares f.1 f.2 = none := by
  simp [moved_board]

/-- The destination square receives the source piece (when the two squares
differ). -/
theorem moved_board_to (b : Board) (f t : Nat × Nat)
    (hne : ¬(t.1 = f.1 ∧ t.2 = f.2)) :
    (moved_board b f t).squares t.1 t.2 = b.squares f.1 f.2 := by
  simp [moved_board, hne]

/-- Every square other than the source and the destination is untouched by
the board mutation. -/
theorem moved_board_other (b : Board) (f t : Nat × Nat) (r fl : Nat)
    (h1 : ¬(r = f.1 ∧ fl = f.2)) (h2 : ¬(r = t.1 ∧ fl = t.2)) :
    (moved_board b f t).squares r fl = b.squares r fl := by
  simp [moved_board, h1, h2]

/-- C7: make_move(board, from, to) returns false — and is the only outcome,
never a panic — exactly when a coordinate is out of range (rank ≥ 10 or
file ≥ 9), the source square is empty, the source piece's color is not the
side to move, or the destination holds a same-color piece; in every other
case it moves the piece, toggles the side to move, and returns true.  (The
embedding is a total function, mirroring the panic-free bound checks of the
source.) -/
theorem c7_make_move_rejection_spec (b : Board) (f t : Nat × Nat) :
    ((make_move b f t).1 = false ↔ move_rejected b f t = true) ∧
    (move_rejected b f t = false →
      (make_move b f t).1 = true ∧
      (make_move b f t).2.squares t.1 t.2 = b.squares f.1 f.2 ∧
      (make_move b f t).2.squares f.1 f.2 = none ∧
      (make_move b f t).2.red_to_move = !b.red_to_move) := by
  by_cases hb : f.1 ≥ 10 ∨ f.2 ≥ 9 ∨ t.1 ≥ 10 ∨ t.2 ≥ 9
  · rw [make_move, if_pos hb, move_rejected]
    simp [hb]
  · rw [make_move, if_neg hb, move_rejected]
    cases hsf : b.squares f.1 f.2 with
    | none => simp [hb]
    | some pr =>
      obtain ⟨c, pt⟩ := pr
      dsimp only
      by_cases hc : decide (c = Color.Red) ≠ b.red_to_move
      · rw [if_pos hc]
        have hbne : (decide (c = Color.Red) != b.red_to_move) = true :=
          bne_iff_ne.mpr hc
        simp [hb, hbne]
      · rw [if_neg hc]
        have hceq : decide (c = Color.Red) = b.red_to_move := not_ne_iff.mp hc
        have hbne : (decide (c = Color.Red) != b.red_to_move) = false := by
          rw [hceq]
          exact bne_self_eq_false b.red_to_move
        cases hst : b.squares t.1 t.2 with
        | none =>
          dsimp only
          have hneq : ¬(t.1 = f.1 ∧ t.2 = f.2) := by
            rintro ⟨e1, e2⟩
            rw [e1, e2, hsf] at hst
            cases hst
          constructor
          · simp [hb, hbne]
          · intro _
            exact ⟨rfl, by rw [moved_board_to b f t hneq]; exact hsf,
              moved_board_from b f t, rfl⟩
        | some pr2 =>
          obtain ⟨c2, p2⟩ := pr2
          dsimp only
          by_cases hcc : c2 = c
          · rw [if_pos hcc]
            simp [hb, hbne, hcc]
          · rw [if_neg hcc]
            have hneq : ¬(t.1 = f.1 ∧ t.2 = f.2) := by
              rintro ⟨e1, e2⟩
              rw [e1, e2, hsf] at hst
              injection hst with hst
              injection hst with hst1 hst2
              exact hcc hst1.symm
            constructor
            · simp [hb, hbne, hcc]
            · intro _
              exact ⟨rfl, by rw [moved_board_to b f t hneq]; exact hsf,
              moved_board_from b f t, rfl⟩

/-- Witness for C7 at a concrete input: the soldier push (3,0)→(2,0) on the
initial position is not rejected, and the theorem yields its success facts. -/
theorem c7_make_move_rejection_spec_witness :
    (make_move initial_position (3, 0) (2, 0)).1 = true ∧
      (make_move initial_position (3, 0) (2, 0)).2.red_to_move = false :=
  ⟨((c7_make_move_rejection_spec initial_position (3, 0) (2, 0)).2 (by decide)).1,
   by
    have h :=
      ((c7_make_move_rejection_spec initial_position (3, 0) (2, 0)).2 (by decide)).2.2.2
    rw [h]
    rfl⟩

/-- C10: A successful make_move changes only the source square (which becomes
empty), the destination square (which receives the moved piece), and the
side-to-move flag (which is negated); all other 88 squares, the halfmove
clock, and the fullmove number are unchanged, and when make_move returns
false the entire board state is unchanged. -/
theorem c10_make_move_frame (b : Board) (f t : Nat × Nat) :
    ((make_move b f t).1 = true →
      (make_move b f t).2.squares f.1 f.2 = none ∧
      (make_move b f t).2.squares t.1 t.2 = b.squares f.1 f.2 ∧
      (make_move b f t).2.red_to_move = !b.red_to_move ∧
      (make_move b f t).2.halfmove_clock = b.halfmove_clock ∧
      (make_move b f t).2.fullmove_number = b.fullmove_number ∧
      ∀ r fl, (r, fl) ≠ f → (r, fl) ≠ t →
        (make_move b f t).2.squares r fl = b.squares r fl) ∧
    ((make_move b f t).1 = false → (make_move b f t).2 = b) := by
  by_cases hb : f.1 ≥ 10 ∨ f.2 ≥ 9 ∨ t.1 ≥ 10 ∨ t.2 ≥ 9
  · rw [make_move, if_pos hb]
    exact ⟨fun h => by simp at h, fun _ => rfl⟩
  · rw [make_move, if_neg hb]
    cases hsf : b.squares f.1 f.2 with
    | none => exact ⟨fun h => by simp at h, fun _ => rfl⟩
    | some pr =>
      obtain ⟨c, pt⟩ := pr
      dsimp only
      by_cases hc : decide (c = Color.Red) ≠ b.red_to_move
      · rw [if_pos hc]
        exact ⟨fun h => by simp at h, fun _ => rfl⟩
      · rw [if_neg hc]
        cases hst : b.squares t.1 t.2 with
        | none =>
          dsimp only
          have hneq : ¬(t.1 = f.1 ∧ t.2 = f.2) := by
            rintro ⟨e1, e2⟩
            rw [e1, e2, hsf] at hst
            cases hst
          refine ⟨fun _ => ?_, fun h => by simp at h⟩
          refine ⟨moved_board_from b f t,
            by rw [moved_board_to b f t hneq]; exact hsf, rfl, rfl, rfl, ?_⟩
          intro r fl hrf hrt
          refine moved_board_other b f t r fl ?_ ?_
          · rintro ⟨rfl, rfl⟩
            exact hrf Prod.mk.eta
          · rintro ⟨rfl, rfl⟩
            exact hrt Prod.mk.eta
        | some pr2 =>
          obtain ⟨c2, p2⟩ := pr2
          dsimp only
          by_cases hcc : c2 = c
          · rw [if_pos hcc]
            exact ⟨fun h => by simp at h, fun _ => rfl⟩
          · rw [if_neg hcc]
            have hneq : ¬(t.1 = f.1 ∧ t.2 = f.2) := by
              rintro ⟨e1, e2⟩
              rw [e1, e2, hsf] at hst
              injection hst with hst
              injection hst with hst1 hst2
              exact hcc hst1.symm
            refine ⟨fun _ => ?_, fun h => by simp at h⟩
            refine ⟨moved_board_from b f t,
              by rw [moved_board_to b f t hneq]; exact hsf, rfl, rfl, rfl, ?_⟩
            intro r fl hrf hrt
            refine moved_board_other b f t r fl ?_ ?_
            · rintro ⟨rfl, rfl⟩
              exact hrf Prod.mk.eta
            · rintro ⟨rfl, rfl⟩
              exact hrt Prod.mk.eta

/-- Witness for C10 at concrete inputs: the successful soldier push
(3,2)→(2,2) on the initial position leaves an untouched square and the clocks
unchanged and empties the source, and a rejected move (empty source (4,4))
leaves the board identical. -/
theorem c10_make_move_frame_witness :
    ((make_move initial_position (3, 2) (2, 2)).2.squares 9 4 =
      initial_position.squares 9 4) ∧
    ((make_move initial_position (3, 2) (2, 2)).2.squares 3 2 = none) ∧
    ((make_move initial_position (3, 2) (2, 2)).2.halfmove_clock =
      initial_position.halfmove_clock) ∧
    ((make_move initial_position (4, 4) (5, 5)).2 = initial_position) := by
  have hs := (c10_make_move_frame initial_position (3, 2) (2, 2)).1 (by decide)
  have hr := (c10_make_move_frame initial_position (4, 4) (5, 5)).2 (by decide)
  exact ⟨hs.2.2.2.2.2 9 4 (by decide) (by decide), hs.1, hs.2.2.2.1, hr⟩

set_option maxRecDepth 100000 in
/-- C1 (documenting the code bug): on the board produced by
setup_initial_position with Red to move, generate_legal_moves returns 45
moves, not the 44 the specification states for depth-1 perft: the Red
General, Advisors and Elephants produce no moves (their palace and river
tests assume Red on ranks 7–9 while the setup places Red on ranks 0–3), and
each rank-3 Red Soldier also receives sideways moves because its rank
is < 5. -/
theorem c1_initial_position_move_count :
    (generate_legal_moves initial_position).length = 45 := by decide

/-- C4: For every board in which the two Generals stand on the same file with
no piece on any square between them, evaluate_position returns ±50000 (the
sign making the side to move the losing side) without adding the material,
mobility, or king-safety terms.  (`is_flying_general` is modelled from the
spec; its definition is not among the provided sources.) -/
theorem c4_flying_general_short_circuit (b : Board)
    (h : is_flying_general b = true) :
    evaluate_position b = if b.red_to_move then -50000 else 50000 := by
  rw [evaluate_position, if_pos h]

/-- Witness for C4 at a concrete input: the facing Generals of `c4_board`
with Red to move give the evaluation −50000. -/
theorem c4_flying_general_short_circuit_witness :
    is_flying_general c4_board = true ∧ evaluate_position c4_board = -50000 := by
  refine ⟨by decide, ?_⟩
  rw [c4_flying_general_short_circuit c4_board (by decide)]
  rfl

/-- C5 (documenting the code bug): for a capture whose attacker is worth more
than its victim but by no more than 500, `see` returns attacker − victim (a
positive number) instead of the victim − attacker stated by the spec: a Horse
(SEE value 450) capturing a Soldier (SEE value 100) scores +350 where the
claim requires −350. -/
theorem c5_see_positive_on_losing_capture :
    seeVal Piece.Horse = 450 ∧ seeVal Piece.Soldier = 100 ∧
    c5_board.squares 0 1 = some (Color.Black, Piece.Soldier) ∧
    c5_board.squares 0 0 = some (Color.Red, Piece.Horse) ∧
    see c5_board (Move.mk (0, 0) (0, 1)) = 350 := by decide

set_option maxRecDepth 100000 in
/-- C6 (documenting the code bug): the capture ordering score of `sort_moves`
is not MVV-LVA-monotone.  With no TT move, no killers and zero history, on
`c6_board` the generated capture of the Black Chariot (SEE value 650) by the
Red Cannon scores 851 while the capture of the less valuable Black Horse
(SEE value 450) by the same Cannon scores 1053; and the generated capture of
the Black Soldier by a Red Soldier (attacker value 100) scores 304 while the
same victim captured by the more valuable Red Horse (attacker value 450)
scores 654 — both monotonicity directions of the claim fail. -/
theorem c6_capture_ordering_not_mvv_lva :
    (Move.mk (4, 4) (4, 2) ∈ generate_legal_moves c6_board) ∧
    (Move.mk (4, 4) (4, 6) ∈ generate_legal_moves c6_board) ∧
    (Move.mk (2, 1) (1, 1) ∈ generate_legal_moves c6_board) ∧
    (Move.mk (3, 2) (1, 1) ∈ generate_legal_moves c6_board) ∧
    seeVal Piece.Chariot > seeVal Piece.Horse ∧
    moveOrderScore c6_board none none none 0 (Move.mk (4, 4) (4, 2)) = 851 ∧
    moveOrderScore c6_board none none none 0 (Move.mk (4, 4) (4, 6)) = 1053 ∧
    seeVal Piece.Soldier < seeVal Piece.Horse ∧
    moveOrderScore c6_board none none none 0 (Move.mk (2, 1) (1, 1)) = 304 ∧
    moveOrderScore c6_board none none none 0 (Move.mk (3, 2) (1, 1)) = 654 := by
  decide

set_option maxRecDepth 100000 in
/-- C3 (counterexample): evaluate_position does not return a Red-perspective
score with Black to move: on `c3_board` (a bare Red Chariot advantage, Black
to move, no flying general) the Red-perspective score is positive but
evaluate_position returns its negation. -/
theorem c3_evaluate_position_counterexample :
    c3_board.red_to_move = false ∧
    is_flying_general c3_board = false ∧
    redPerspectiveScore c3_board = 682 ∧
    evaluate_position c3_board = -682 := by decide

/-- C3 (amended): outside the flying-general early return, evaluate_position
returns the accumulated Red-perspective score when Red is to move and its
negation when Black is to move — a side-to-move-perspective score, with no
negation left to the caller. -/
theorem c3_evaluate_position_side_to_move (b : Board)
    (h : is_flying_general b = false) :
    evaluate_position b =
      if b.red_to_move then redPerspectiveScore b else -redPerspectiveScore b := by
  rw [evaluate_position, if_neg (by simp [h])]
  cases hb : b.red_to_move <;> simp [hb]

/-- Witness for the amended C3 theorem at a concrete input. -/
theorem c3_evaluate_position_side_to_move_witness :
    evaluate_position c3_board = -redPerspectiveScore c3_board := by
  rw [c3_evaluate_position_side_to_move c3_board (by decide)]
  rfl

set_option maxRecDepth 100000 in
/-- C2 (counterexample): `is_in_check` does not agree with the move
generator's per-piece rules.  On `c2_board` the Black Cannon's generated
pseudo-legal moves (moves.rs, which accepts a screen of either color) contain
the capture of the Red General on (0,4), yet `is_in_check` — whose internal
board.rs generator lets only an enemy piece serve as a cannon screen —
reports Red as not in check. -/
theorem c2_is_in_check_counterexample :
    c2_board.squares 0 4 = some (Color.Red, Piece.General) ∧
    c2_board.red_to_move = false ∧
    Move.mk (4, 4) (0, 4) ∈ generate_legal_moves c2_board ∧
    is_in_check c2_board Color.Red = false := by decide

/-- C2 (amended): `is_in_check(board, c)` returns true iff some enemy piece
has the square of c's General (the one located by the board.rs scan) among
the moves of board.rs's own internal per-piece generator — a generator that
differs from the moves.rs one used by `generate_legal_moves`. -/
theorem c2_is_in_check_matches_internal_generator (b : Board) (c : Color) :
    is_in_check b c = true ↔
      ∃ g, find_general b c = some g ∧
        ∃ r, r < 10 ∧ ∃ f, f < 9 ∧ ∃ pt,
          b.squares r f = some (Color.opp c, pt) ∧
          g ∈ board_generate_piece_moves b (r, f) := by
  rw [is_in_check]
  cases hg : find_general b c with
  | none => simp
  | some g =>
    simp only [List.any_eq_true, List.mem_range, Option.some.injEq]
    constructor
    · rintro ⟨r, hr, f, hf, hin⟩
      split at hin
      · rename_i pc pt hsq
        rw [Bool.and_eq_true, decide_eq_true_iff] at hin
        obtain ⟨hpc, hany⟩ := hin
        rw [List.any_eq_true] at hany
        obtain ⟨mv, hmv, hbeq⟩ := hany
        rw [beq_iff_eq] at hbeq
        rw [hbeq] at hmv
        exact ⟨g, rfl, r, hr, f, hf, pt, by rw [hsq, hpc], hmv⟩
      · cases hin
    · rintro ⟨g2, rfl, r, hr, f, hf, pt, hsq, hmem⟩
      refine ⟨r, hr, f, hf, ?_⟩
      rw [hsq]
      dsimp only
      rw [Bool.and_eq_true, decide_eq_true_iff]
      refine ⟨rfl, ?_⟩
      rw [List.any_eq_true]
      exact ⟨g, hmem, by rw [beq_iff_eq]⟩

/-- Membership in the post-platform cannon scan: exactly the first square of
the list holding a piece, provided it is an enemy and every square before it
in the list is empty. -/
theorem cannonScan_true_mem_iff (b : Board) (c : Color) (pos s : Nat × Nat) :
    ∀ l : List (Nat × Nat),
      (Move.mk pos s ∈ cannonScan b c pos true l ↔
        ∃ l1 l2, l = l1 ++ s :: l2 ∧ occ_count b l1 = 0 ∧
          ∃ ec p, b.squares s.1 s.2 = some (ec, p) ∧ ec ≠ c) := by
  intro l
  induction l with
  | nil =>
    constructor
    · intro h
      simp [cannonScan] at h
    · rintro ⟨l1, l2, heq, -, -⟩
      cases l1 <;> simp at heq
  | cons q rest ih =>
    rw [cannonScan]
    split
    · rename_i hsq
      rw [ih]
      constructor
      · rintro ⟨l1, l2, rfl, hocc, hs⟩
        refine ⟨q :: l1, l2, rfl, ?_, hs⟩
        rw [occ_count_cons, hsq]
        simpa using hocc
      · rintro ⟨l1, l2, heq, hocc, hs⟩
        cases l1 with
        | nil =>
          rw [List.nil_append] at heq
          injection heq with h1 h2
          obtain ⟨ec, p, hsome, -⟩ := hs
          rw [h1] at hsq
          rw [hsq] at hsome
          simp at hsome
        | cons a l1 =>
          rw [List.cons_append] at heq
          injection heq with h1 h2
          refine ⟨l1, l2, h2, ?_, hs⟩
          rw [← h1] at hocc
          rw [occ_count_cons, hsq] at hocc
          simpa using hocc
    · rename_i pc p hsq
      split
      · rename_i hne
        constructor
        · intro h
          rw [List.mem_singleton] at h
          injection h with e1 e2
          subst e2
          exact ⟨[], rest, rfl, rfl, pc, p, hsq, hne⟩
        · rintro ⟨l1, l2, heq, hocc, hs⟩
          cases l1 with
          | nil =>
            rw [List.nil_append] at heq
            injection heq with h1 h2
            subst h1
            exact List.mem_singleton.mpr rfl
          | cons a l1 =>
            rw [List.cons_append] at heq
            injection heq with h1 h2
            rw [← h1] at hocc
            rw [occ_count_cons, hsq] at hocc
            simp at hocc
      · rename_i hne
        constructor
        · intro h
          simp at h
        · rintro ⟨l1, l2, heq, hocc, ec, p2, hsome, hec⟩
          cases l1 with
          | nil =>
            rw [List.nil_append] at heq
            injection heq with h1 h2
            rw [h1] at hsq
            rw [hsq] at hsome
            injection hsome with hsome
            injection hsome with he1 he2
            exact absurd (he1 ▸ not_not.mp hne) hec
          | cons a l1 =>
            rw [List.cons_append] at heq
            injection heq with h1 h2
            rw [← h1] at hocc
            rw [occ_count_cons, hsq] at hocc
            simp at hocc

/-- Membership in the full cannon scan: an empty square is a (non-capture)
move iff every listed square before it is empty, and an occupied square is a
(capture) move iff it holds an enemy piece and exactly one listed square
before it is occupied (the screen, of either color). -/
theorem cannonScan_false_mem_iff (b : Board) (c : Color) (pos s : Nat × Nat) :
    ∀ l : List (Nat × Nat),
      (Move.mk pos s ∈ cannonScan b c pos false l ↔
        ∃ l1 l2, l = l1 ++ s :: l2 ∧
          ((b.squares s.1 s.2 = none ∧ occ_count b l1 = 0) ∨
           (occ_count b l1 = 1 ∧
             ∃ ec p, b.squares s.1 s.2 = some (ec, p) ∧ ec ≠ c))) := by
  intro l
  induction l with
  | nil =>
    constructor
    · intro h
      simp [cannonScan] at h
    · rintro ⟨l1, l2, heq, -⟩
      cases l1 <;> simp at heq
  | cons q rest ih =>
    rw [cannonScan]
    split
    · rename_i hsq
      rw [List.mem_cons]
      constructor
      · rintro (heq | hmem)
        · injection heq with e1 e2
          subst e2
          exact ⟨[], rest, rfl, Or.inl ⟨hsq, rfl⟩⟩
        · obtain ⟨l1, l2, rfl, hbr⟩ := ih.mp hmem
          refine ⟨q :: l1, l2, rfl, ?_⟩
          rcases hbr with ⟨hn, hocc⟩ | ⟨hocc, hs⟩
          · exact Or.inl ⟨hn, by rw [occ_count_cons, hsq]; simpa using hocc⟩
          · exact Or.inr ⟨by rw [occ_count_cons, hsq]; simpa using hocc, hs⟩
      · rintro ⟨l1, l2, heq, hbr⟩
        cases l1 with
        | nil =>
          rw [List.nil_append] at heq
          injection heq with h1 h2
          subst h1
          left
          rfl
        | cons a l1 =>
          rw [List.cons_append] at heq
          injection heq with h1 h2
          right
          apply ih.mpr
          refine ⟨l1, l2, h2, ?_⟩
          rw [← h1] at hbr
          rcases hbr with ⟨hn, hocc⟩ | ⟨hocc, hs⟩
          · rw [occ_count_cons, hsq] at hocc
            exact Or.inl ⟨hn, by simpa using hocc⟩
          · rw [occ_count_cons, hsq] at hocc
            exact Or.inr ⟨by simpa using hocc, hs⟩
    · rename_i pr hsq
      rw [cannonScan_true_mem_iff b c pos s rest]
      constructor
      · rintro ⟨l1, l2, rfl, hocc, hs⟩
        refine ⟨q :: l1, l2, rfl, Or.inr ⟨?_, hs⟩⟩
        rw [occ_count_cons, hsq]
        simp [hocc]
      · rintro ⟨l1, l2, heq, hbr⟩
        cases l1 with
        | nil =>
          rw [List.nil_append] at heq
          injection heq with h1 h2
          rw [h1] at hsq
          rcases hbr with ⟨hn, -⟩ | ⟨hocc, -⟩
          · rw [hsq] at hn
            simp at hn
          · simp [occ_count] at hocc
        | cons a l1 =>
          rw [List.cons_append] at heq
          injection heq with h1 h2
          rw [← h1] at hbr
          rcases hbr with ⟨hn, hocc⟩ | ⟨hocc, hs⟩
          · rw [occ_count_cons, hsq] at hocc
            simp at hocc
          · rw [occ_count_cons, hsq] at hocc
            refine ⟨l1, l2, h2, ?_, hs⟩
            simpa using hocc

/-- C8: the generated Cannon moves include a capture of square s exactly when
s holds an enemy piece and, along one orthogonal line from the Cannon to s
(`ray pos d = l1 ++ s :: l2`, so `l1` lists the intervening squares in
order), there is exactly one occupied intervening square (the screen, of
either color); non-capture Cannon moves (empty destination) exist exactly
when every intervening square is empty, so the Cannon never lands on the
screen and never captures without a screen. -/
theorem c8_cannon_moves_characterization (b : Board) (c : Color) (pos s : Nat × Nat) :
    (∀ ec p, b.squares s.1 s.2 = some (ec, p) →
      (Move.mk pos s ∈ generate_cannon_moves b pos c ↔
        ec ≠ c ∧ ∃ d ∈ directions, ∃ l1 l2,
          ray pos d = l1 ++ s :: l2 ∧ occ_count b l1 = 1)) ∧
    (b.squares s.1 s.2 = none →
      (Move.mk pos s ∈ generate_cannon_moves b pos c ↔
        ∃ d ∈ directions, ∃ l1 l2,
          ray pos d = l1 ++ s :: l2 ∧ occ_count b l1 = 0)) := by
  constructor
  · intro ec p hsome
    rw [generate_cannon_moves, List.mem_flatMap]
    constructor
    · rintro ⟨d, hd, hmem⟩
      rw [cannonScan_false_mem_iff] at hmem
      obtain ⟨l1, l2, heq, hbr⟩ := hmem
      rcases hbr with ⟨hn, -⟩ | ⟨hocc, ec2, p2, hsome2, hec2⟩
      · rw [hsome] at hn
        simp at hn
      · rw [hsome] at hsome2
        injection hsome2 with h
        injection h with he1 he2
        exact ⟨by rw [he1]; exact hec2, d, hd, l1, l2, heq, hocc⟩
    · rintro ⟨hec, d, hd, l1, l2, heq, hocc⟩
      refine ⟨d, hd, ?_⟩
      rw [cannonScan_false_mem_iff]
      exact ⟨l1, l2, heq, Or.inr ⟨hocc, ec, p, hsome, hec⟩⟩
  · intro hnone
    rw [generate_cannon_moves, List.mem_flatMap]
    constructor
    · rintro ⟨d, hd, hmem⟩
      rw [cannonScan_false_mem_iff] at hmem
      obtain ⟨l1, l2, heq, hbr⟩ := hmem
      rcases hbr with ⟨-, hocc⟩ | ⟨-, ec2, p2, hsome2, -⟩
      · exact ⟨d, hd, l1, l2, heq, hocc⟩
      · rw [hnone] at hsome2
        simp at hsome2
    · rintro ⟨d, hd, l1, l2, heq, hocc⟩
      refine ⟨d, hd, ?_⟩
      rw [cannonScan_false_mem_iff]
      exact ⟨l1, l2, heq, Or.inl ⟨hnone, hocc⟩⟩

/-- Witness for C8 at the spec's cannon scenario (§8 scenario 2): the capture
of the Black Chariot on (5,1) over the single Soldier screen is a generated
move (obtained through the characterization theorem with an explicit ray
decomposition), while the screen (3,1) cannot be captured without a second
screen and the empty square (4,1) beyond the screen cannot be reached. -/
theorem c8_cannon_moves_characterization_witness :
    (Move.mk (0, 1) (5, 1) ∈ generate_cannon_moves c8_board (0, 1) Color.Red) ∧
    (Move.mk (0, 1) (3, 1) ∉ generate_cannon_moves c8_board (0, 1) Color.Red) ∧
    (Move.mk (0, 1) (4, 1) ∉ generate_cannon_moves c8_board (0, 1) Color.Red) := by
  refine ⟨?_, by decide, by decide⟩
  refine ((c8_cannon_moves_characterization c8_board Color.Red (0, 1) (5, 1)).1
    Color.Black Piece.Chariot (by decide)).mpr ?_
  exact ⟨by decide, (1, 0), by decide, [(1, 1), (2, 1), (3, 1), (4, 1)],
    [(6, 1), (7, 1), (8, 1), (9, 1)], by decide, by decide⟩
